import Mathlib

/-!
Verification of the mesh provider of a clustered alerting service
(`provider/mesh/peer.go`): gossip-replicated notification-info and
silence stores with last-write-wins merge.

The key-value state machinery (`notificationState`, `silenceState`,
their `Merge`, `mergeDelta`, `mergeComplete` and the decode functions)
lives outside the given sources; those parts are modelled from the
specification and marked as such.  Everything else is translated from
`peer.go`.
-/

set_option autoImplicit false

namespace Alertmanager

/-- Go `time.Time`, modelled as an integer instant; `Before` is strict `<`. -/
abbrev Time := Int

/-- Go `uuid.UUID`, modelled as a natural number; `uuid.Nil` is `0`. -/
abbrev UUID := Nat

/-- `uuid.Nil`, the zero UUID. -/
def uuidNil : UUID := 0

/-- A Go map, modelled as an association list; `lookup` observes the first
binding of a key and `insert` overwrites it, so states built by `insert`
behave like maps with unique keys. -/
abbrev RSet (K V : Type) := List (K × V)

/-- Membership lookup of a Go map (`v, ok := m[k]`). -/
def RSet.lookup {K V : Type} [DecidableEq K] : RSet K V → K → Option V
  | [], _ => none
  | (k, v) :: t, k0 => if k0 = k then some v else RSet.lookup t k0

/-- Assignment into a Go map (`m[k] = v`): overwrite the binding if present,
otherwise add it. -/
def RSet.insert {K V : Type} [DecidableEq K] : RSet K V → K → V → RSet K V
  | [], k0, v0 => [(k0, v0)]
  | (k, v) :: t, k0, v0 =>
      if k0 = k then (k0, v0) :: t else (k, v) :: RSet.insert t k0 v0

/-- The keys of a state. -/
def RSet.keys {K V : Type} (m : RSet K V) : List K := m.map Prod.fst

/-- Modelled from the spec: one entry step of `ReplicatedSet.merge` — for a
key, keep the value with the later comparison timestamp (`ts`); ties keep
the receiver's existing value. -/
def RSet.mergeStep {K V : Type} [DecidableEq K] (ts : V → Time)
    (acc : RSet K V) (kv : K × V) : RSet K V :=
  match RSet.lookup acc kv.1 with
  | none => RSet.insert acc kv.1 kv.2
  | some prev =>
      if ts prev < ts kv.2 then RSet.insert acc kv.1 kv.2 else acc

/-- Modelled from the spec: `ReplicatedSet.merge` (`Merge` of
`notificationState`/`silenceState`, absent from the sources) — apply the
update's entries into the receiver; for each key keep the value with the
later comparison timestamp, ties keep the receiver's existing value. -/
def RSet.merge {K V : Type} [DecidableEq K] (ts : V → Time)
    (s u : RSet K V) : RSet K V :=
  u.foldl (RSet.mergeStep ts) s

/-- Modelled from the spec: one entry step of `mergeDelta`, threading the
pair (state so far, delta so far); an entry is accepted exactly when it is
strictly newer than the stored value (or the key is absent), and accepted
entries are also recorded in the delta. -/
def RSet.mergeDeltaStep {K V : Type} [DecidableEq K] (ts : V → Time)
    (p : RSet K V × RSet K V) (kv : K × V) : RSet K V × RSet K V :=
  match RSet.lookup p.1 kv.1 with
  | none => (RSet.insert p.1 kv.1 kv.2, RSet.insert p.2 kv.1 kv.2)
  | some prev =>
      if ts prev < ts kv.2 then
        (RSet.insert p.1 kv.1 kv.2, RSet.insert p.2 kv.1 kv.2)
      else p

/-- Modelled from the spec: `mergeDelta` (absent from the sources) — like
`merge`, but also collect and return a new set containing only the keys
whose stored value actually changed.  Returns (new state, delta). -/
def RSet.mergeDelta {K V : Type} [DecidableEq K] (ts : V → Time)
    (s u : RSet K V) : RSet K V × RSet K V :=
  u.foldl (RSet.mergeDeltaStep ts) (s, [])

/-- Modelled from the spec: `mergeComplete` (absent from the sources) —
apply the update fully, without computing or returning a delta. -/
def RSet.mergeComplete {K V : Type} [DecidableEq K] (ts : V → Time)
    (s u : RSet K V) : RSet K V :=
  RSet.merge ts s u

/-- The per-key last-write-wins combination stated by the spec: keep the
value with the later comparison timestamp; on a tie keep the receiver's
(stored) value. -/
def lwwPick {V : Type} (ts : V → Time) (stored incoming : Option V) : Option V :=
  match incoming, stored with
  | none, sv => sv
  | some uv, none => some uv
  | some uv, some sv => if ts sv < ts uv then some uv else some sv

/-- types.Matcher: a label matcher of a silence. -/
structure Matcher where
  Name : String
  Value : String
  IsRegex : Bool
  deriving DecidableEq

/-- notificationEntry: the stored value of the notification-info state. -/
structure notificationEntry where
  Resolved : Bool
  Timestamp : Time
  deriving DecidableEq

/-- types.NotifyInfo: one notification-info record of the public API. -/
structure NotifyInfo where
  Alert : Nat
  Receiver : String
  Resolved : Bool
  Timestamp : Time
  deriving DecidableEq

/-- Lowercase hex rendering of a fingerprint, as Go fmt `%x` on a uint64. -/
def fpHex (n : Nat) : String := (Nat.toDigits 16 n).asString

/-- The composite key `fmt.Sprintf("%x:%s", fp, receiver)` used by
`NotificationInfos.Set` and `NotificationInfos.Get`. -/
def notifKey (fp : Nat) (recv : String) : String := fpHex fp ++ ":" ++ recv

/-- The comparison timestamp of the notification state (its entries compare
by `Timestamp`). -/
def notifTs (e : notificationEntry) : Time := e.Timestamp

/-- The mapping held by `notificationState`. -/
abbrev notifSet := RSet String notificationEntry

/-- The mapping held by `silenceState`, keyed by silence id. -/
structure Silence where
  ID : UUID
  Matchers : List Matcher
  StartsAt : Time
  EndsAt : Time
  UpdatedAt : Time
  CreatedBy : String
  Comment : String
  deriving DecidableEq

/-- The comparison timestamp of the silence state (its entries compare by
`UpdatedAt`). -/
def silTs (s : Silence) : Time := s.UpdatedAt

abbrev silSet := RSet UUID Silence

/-- Result of `NotificationInfos.Set`: the store state after the local
merge, the update handed to `GossipBroadcast`, and the returned error. -/
structure NISetResult where
  state : notifSet
  broadcast : notifSet
  err : Option String
  deriving DecidableEq

/-- The batched update map built by the loop of `NotificationInfos.Set`:
`set[fmt.Sprintf("%x:%s", n.Alert, n.Receiver)] = {n.Resolved, n.Timestamp}`
in argument order. -/
def buildNotifSet (ns : List NotifyInfo) : notifSet :=
  ns.foldl
    (fun acc n =>
      RSet.insert acc (notifKey n.Alert n.Receiver) ⟨n.Resolved, n.Timestamp⟩)
    []

/-- `NotificationInfos.Set`: build the batched update, merge it into the
local store, broadcast it, return nil error. -/
def NotificationInfos.Set (st : notifSet) (ns : List NotifyInfo) : NISetResult :=
  let update := buildNotifSet ns
  { state := RSet.merge notifTs st update, broadcast := update, err := none }

/-- The loop body of `NotificationInfos.Get`: the element appended for one
fingerprint — the stored entry wrapped into a NotifyInfo, or nil. -/
def NotificationInfos.getOne (st : notifSet) (dest : String) (fp : Nat) :
    Option NotifyInfo :=
  match RSet.lookup st (notifKey fp dest) with
  | some e => some ⟨fp, dest, e.Resolved, e.Timestamp⟩
  | none => none

/-- `NotificationInfos.Get`: iterate the fingerprints, appending the stored
entry or nil for each (the Go loop over `fps` with `res = append(res, …)`). -/
def NotificationInfos.Get (st : notifSet) (dest : String) (fps : List Nat) :
    List (Option NotifyInfo) :=
  fps.foldl (fun res fp => res ++ [NotificationInfos.getOne st dest fp]) []

/-- Result of `Silences.Set`: returned id and error, state after the local
merge, and the update handed to `GossipBroadcast` (if any). -/
structure SilSetResult where
  retId : UUID
  err : Option String
  state : silSet
  broadcast : Option silSet
  deriving DecidableEq

/-- `Silences.Set`: assign a fresh id if the silence has the nil id, stamp
`UpdatedAt = now`, merge the single-entry update, broadcast it, and return
the id.  The fresh id drawn by `uuid.NewV4()` is a parameter. -/
def Silences.Set (st : silSet) (sil : Silence) (freshId : UUID) (now : Time) :
    SilSetResult :=
  let id := if sil.ID = uuidNil then freshId else sil.ID
  let sil1 := { sil with ID := id, UpdatedAt := now }
  let update := [(id, sil1)]
  { retId := id, err := none, state := RSet.merge silTs st update,
    broadcast := some update }

/-- The error outcomes of `Silences.Del`: `provider.ErrNotFound`, the
"silence already ended" error, and the "silence init" validation error. -/
inductive DelError where
  | notFound
  | alreadyEnded
  | initError
  deriving DecidableEq

/-- Result of `Silences.Del`: returned error, state after the call, and the
update handed to `GossipBroadcast` (if any). -/
structure DelResult where
  err : Option DelError
  state : silSet
  broadcast : Option silSet
  deriving DecidableEq

/-- Modelled from the spec: the silence validation performed by
`types.Silence.Init`, which is absent from the sources; the spec only
requires re-validation that can fail on an invalid record.  As a
spec-consistent instance, a silence with no matchers is invalid. -/
def silenceContentValid (s : Silence) : Bool := !s.Matchers.isEmpty

/-- `Silences.Del`: look up the id (NotFound if absent), reject silences
already ended before `now`, otherwise build the tombstone version with
`UpdatedAt = now` and `EndsAt = now`, re-validate it (`validate` stands for
`newSil.Init()`), merge the single-entry update and broadcast it. -/
def Silences.Del (validate : Silence → Bool) (st : silSet) (id : UUID)
    (now : Time) : DelResult :=
  match RSet.lookup st id with
  | none => { err := some DelError.notFound, state := st, broadcast := none }
  | some sil =>
      if sil.EndsAt < now then
        { err := some DelError.alreadyEnded, state := st, broadcast := none }
      else
        let newSil := { sil with UpdatedAt := now, EndsAt := now }
        if validate newSil then
          let update := [(newSil.ID, newSil)]
          { err := none, state := RSet.merge silTs st update,
            broadcast := some update }
        else
          { err := some DelError.initError, state := st, broadcast := none }

/-- An inbound gossip payload: either the well-formed encoding of an update
set, or corrupt bytes. -/
inductive Payload (U : Type) where
  | wellFormed (u : U)
  | corrupt
  deriving DecidableEq

/-- Modelled from the spec: decoding of a gossip payload (the decode
functions are absent from the sources); decoding rejects truncated or
corrupt input with a decode error instead of crashing, and a well-formed
payload round-trips to its update set. -/
def decodeSet {U : Type} : Payload U → Except String U
  | Payload.wellFormed u => Except.ok u
  | Payload.corrupt => Except.error "decode"

/-- `decodeNotificationSet`, specialized from the spec-modelled decoder. -/
def decodeNotificationSet (b : Payload notifSet) : Except String notifSet :=
  decodeSet b

/-- `decodeSilenceSet`, specialized from the spec-modelled decoder. -/
def decodeSilenceSet (b : Payload silSet) : Except String silSet :=
  decodeSet b

/-- Result of a gossip receive callback: the returned `mesh.GossipData`
(`none` models the Go nil interface), the returned error, and the local
store state after the call. -/
structure GossipCbResult (S : Type) where
  ret : Option S
  err : Option String
  state : S
  deriving DecidableEq

/-- `NotificationInfos.OnGossip`: decode, merge the delta, and return nil
when the delta is empty (per the OnGossip contract), the delta otherwise. -/
def NotificationInfos.OnGossip (st : notifSet) (b : Payload notifSet) :
    GossipCbResult notifSet :=
  match decodeNotificationSet b with
  | Except.error e => { ret := none, err := some e, state := st }
  | Except.ok set =>
      let p := RSet.mergeDelta notifTs st set
      if p.2.isEmpty then { ret := none, err := none, state := p.1 }
      else { ret := some p.2, err := none, state := p.1 }

/-- `NotificationInfos.OnGossipBroadcast`: decode and return the merge
delta unconditionally. -/
def NotificationInfos.OnGossipBroadcast (st : notifSet) (b : Payload notifSet) :
    GossipCbResult notifSet :=
  match decodeNotificationSet b with
  | Except.error e => { ret := none, err := some e, state := st }
  | Except.ok set =>
      let p := RSet.mergeDelta notifTs st set
      { ret := some p.2, err := none, state := p.1 }

/-- `NotificationInfos.OnGossipUnicast`: decode and merge completely,
returning only the error (paired here with the state after the call). -/
def NotificationInfos.OnGossipUnicast (st : notifSet) (b : Payload notifSet) :
    Option String × notifSet :=
  match decodeNotificationSet b with
  | Except.error e => (some e, st)
  | Except.ok set => (none, RSet.mergeComplete notifTs st set)

/-- `Silences.OnGossip`: decode, merge the delta, and return nil when the
delta is empty (per the OnGossip contract), the delta otherwise. -/
def Silences.OnGossip (st : silSet) (b : Payload silSet) :
    GossipCbResult silSet :=
  match decodeSilenceSet b with
  | Except.error e => { ret := none, err := some e, state := st }
  | Except.ok set =>
      let p := RSet.mergeDelta silTs st set
      if p.2.isEmpty then { ret := none, err := none, state := p.1 }
      else { ret := some p.2, err := none, state := p.1 }

/-- `Silences.OnGossipBroadcast`: decode and return the merge delta
unconditionally. -/
def Silences.OnGossipBroadcast (st : silSet) (b : Payload silSet) :
    GossipCbResult silSet :=
  match decodeSilenceSet b with
  | Except.error e => { ret := none, err := some e, state := st }
  | Except.ok set =>
      let p := RSet.mergeDelta silTs st set
      { ret := some p.2, err := none, state := p.1 }

/-- `Silences.OnGossipUnicast`: decode and merge completely, returning only
the error (paired here with the state after the call). -/
def Silences.OnGossipUnicast (st : silSet) (b : Payload silSet) :
    Option String × silSet :=
  match decodeSilenceSet b with
  | Except.error e => (some e, st)
  | Except.ok set => (none, RSet.mergeComplete silTs st set)

/-- A Go heap address, for the pointer-level model of the silence store. -/
abbrev Addr := Nat

/-- The heap of silence objects: address to record. -/
abbrev SilHeap := RSet Addr Silence

/-- The silence store at the pointer level: the Go map holds `*types.Silence`
pointers, modelled as addresses into the heap. -/
abbrev silPtrSet := RSet UUID Addr

/-- `Silences.Get` at the pointer level: return the stored pointer itself
(`return sil, nil` hands out the map's own `*types.Silence`). -/
def Silences.GetPtr (st : silPtrSet) (id : UUID) : Option Addr :=
  RSet.lookup st id

/-- `Silences.All` at the pointer level: append every stored pointer. -/
def Silences.AllPtr (st : silPtrSet) : List Addr := st.map Prod.snd

/-- Mutation of a silence record in place through a pointer. -/
def heapWrite (h : SilHeap) (a : Addr) (s : Silence) : SilHeap :=
  RSet.insert h a s

/-- The silence record the store exposes for an id: the stored pointer
dereferenced in the heap. -/
def storedSilence (h : SilHeap) (st : silPtrSet) (id : UUID) : Option Silence :=
  (RSet.lookup st id).bind (RSet.lookup h)

/-- Lock and shared-map access events, in program order. -/
inductive LockEv where
  | rlock
  | runlock
  | lock
  | unlock
  | readSet
  deriving DecidableEq

/-- Lock/access trace of `Silences.Mutes`: `s.st.mtx.RLock()`, one read of
the shared set per iterated silence, `s.st.mtx.RUnlock()` (deferred). -/
def Silences.MutesTrace (st : silSet) : List LockEv :=
  LockEv.rlock :: ((st.map fun _ => LockEv.readSet) ++ [LockEv.runlock])

/-- Lock/access trace of `Silences.All`: `RLock`, one read of the shared
set per stored silence, deferred `RUnlock`. -/
def Silences.AllTrace (st : silSet) : List LockEv :=
  LockEv.rlock :: ((st.map fun _ => LockEv.readSet) ++ [LockEv.runlock])

/-- Lock/access trace of `Silences.Get`: `RLock`, the map lookup, deferred
`RUnlock`. -/
def Silences.GetTrace : List LockEv :=
  [LockEv.rlock, LockEv.readSet, LockEv.runlock]

/-- Lock/access trace of `NotificationInfos.Get`: one read of the shared
set (`ni.st.set[k]`) per fingerprint, with no lock operation anywhere in
the function body. -/
def NotificationInfos.GetTrace (fps : List Nat) : List LockEv :=
  fps.map fun _ => LockEv.readSet

/-- Checks that every shared-map read in a trace happens while at least one
read lock is held (`d` is the current read-lock depth). -/
def readsLocked : List LockEv → Nat → Bool
  | [], _ => true
  | LockEv.rlock :: t, d => readsLocked t (d + 1)
  | LockEv.runlock :: t, d => readsLocked t (d - 1)
  | LockEv.readSet :: t, d => decide (0 < d) && readsLocked t d
  | LockEv.lock :: t, d => readsLocked t d
  | LockEv.unlock :: t, d => readsLocked t d

/-- A stored, currently-active silence used in concrete instances. -/
def silActive : Silence :=
  ⟨1, [⟨"alertname", "Foo", false⟩], 0, 10, 5, "x", "c"⟩

/-- A silence with no matchers, content-invalid under the spec-modelled
validation. -/
def silNoMatchers : Silence := ⟨1, [], 0, 10, 5, "x", "c"⟩

theorem RSet.lookup_insert {K V : Type} [DecidableEq K]
    (m : RSet K V) (k k0 : K) (v : V) :
    RSet.lookup (RSet.insert m k v) k0 = if k0 = k then some v else RSet.lookup m k0 := by
  induction m with
  | nil => simp [RSet.insert, RSet.lookup]
  | cons hd t ih =>
      obtain ⟨k1, v1⟩ := hd
      by_cases hk : k = k1
      · subst hk
        by_cases hk0 : k0 = k <;> simp [RSet.insert, RSet.lookup, hk0]
      · by_cases hk0 : k0 = k1
        · have hkk : ¬ k0 = k := fun hh => hk (hh.symm.trans hk0)
          have hk1 : ¬ k1 = k := fun hh => hk hh.symm
          simp [RSet.insert, RSet.lookup, hk, hk0, hkk, hk1]
        · have hstep : RSet.lookup (RSet.insert ((k1, v1) :: t) k v) k0
              = RSet.lookup (RSet.insert t k v) k0 := by
            simp [RSet.insert, RSet.lookup, hk, hk0]
          rw [hstep, ih]
          by_cases hkk : k0 = k <;> simp [RSet.lookup, hkk, hk0]

theorem RSet.lookup_eq_none_of_not_mem_keys {K V : Type} [DecidableEq K]
    (m : RSet K V) (k : K) (h : k ∉ RSet.keys m) :
    RSet.lookup m k = none := by
  induction m with
  | nil => rfl
  | cons hd t ih =>
      simp [RSet.keys] at h
      simp [RSet.lookup, h.1, ih (by simp [RSet.keys, h.2])]

theorem RSet.lookup_mergeStep_ne {K V : Type} [DecidableEq K] (ts : V → Time)
    (acc : RSet K V) (kv : K × V) (k : K) (hne : k ≠ kv.1) :
    RSet.lookup (RSet.mergeStep ts acc kv) k = RSet.lookup acc k := by
  cases h : RSet.lookup acc kv.1 with
  | none => simp [RSet.mergeStep, h, RSet.lookup_insert, hne]
  | some prev =>
      by_cases hlt : ts prev < ts kv.2 <;>
        simp [RSet.mergeStep, h, hlt, RSet.lookup_insert, hne]

theorem RSet.lookup_mergeStep_self {K V : Type} [DecidableEq K] (ts : V → Time)
    (acc : RSet K V) (kv : K × V) :
    RSet.lookup (RSet.mergeStep ts acc kv) kv.1
      = lwwPick ts (RSet.lookup acc kv.1) (some kv.2) := by
  cases h : RSet.lookup acc kv.1 with
  | none => simp [RSet.mergeStep, h, lwwPick, RSet.lookup_insert]
  | some prev =>
      by_cases hlt : ts prev < ts kv.2 <;>
        simp [RSet.mergeStep, h, lwwPick, hlt, RSet.lookup_insert]

theorem RSet.merge_nil {K V : Type} [DecidableEq K] (ts : V → Time) (s : RSet K V) :
    RSet.merge ts s [] = s := rfl

theorem RSet.merge_cons {K V : Type} [DecidableEq K] (ts : V → Time)
    (s : RSet K V) (kv : K × V) (t : RSet K V) :
    RSet.merge ts s (kv :: t) = RSet.merge ts (RSet.mergeStep ts s kv) t := rfl

theorem RSet.lookup_merge {K V : Type} [DecidableEq K] (ts : V → Time) (u : RSet K V) :
    ∀ (s : RSet K V) (k : K), (RSet.keys u).Nodup →
      RSet.lookup (RSet.merge ts s u) k
        = lwwPick ts (RSet.lookup s k) (RSet.lookup u k) := by
  induction u with
  | nil =>
      intro s k _
      rw [RSet.merge_nil]
      cases RSet.lookup s k <;> simp [RSet.lookup, lwwPick]
  | cons kv t ih =>
      intro s k hu
      obtain ⟨k1, v1⟩ := kv
      simp only [RSet.keys, List.map_cons, List.nodup_cons] at hu
      obtain ⟨hnotin, hnd⟩ := hu
      rw [RSet.merge_cons]
      by_cases hk : k = k1
      · subst hk
        rw [ih (RSet.mergeStep ts s (k, v1)) k hnd]
        have ht : RSet.lookup t k = none :=
          RSet.lookup_eq_none_of_not_mem_keys t k hnotin
        rw [ht, RSet.lookup_mergeStep_self ts s (k, v1)]
        cases RSet.lookup s k with
        | none => simp [RSet.lookup, lwwPick]
        | some prev =>
            by_cases hlt : ts prev < ts v1 <;> simp [RSet.lookup, lwwPick, hlt]
      · rw [ih (RSet.mergeStep ts s (k1, v1)) k hnd,
          RSet.lookup_mergeStep_ne ts s (k1, v1) k hk]
        simp [RSet.lookup, hk]

theorem RSet.lookup_merge_ts_mono {K V : Type} [DecidableEq K] (ts : V → Time)
    (u : RSet K V) : ∀ (s : RSet K V) (k : K) (p : V),
      RSet.lookup s k = some p →
      ∃ q, RSet.lookup (RSet.merge ts s u) k = some q ∧ ts p ≤ ts q := by
  induction u with
  | nil => intro s k p h; exact ⟨p, h, le_refl _⟩
  | cons kv t ih =>
      intro s k p h
      rw [RSet.merge_cons]
      by_cases hk : k = kv.1
      · subst hk
        have hstep := RSet.lookup_mergeStep_self ts s kv
        rw [h] at hstep
        by_cases hlt : ts p < ts kv.2
        · obtain ⟨q, hq, hle⟩ := ih (RSet.mergeStep ts s kv) kv.1 kv.2
            (by rw [hstep]; simp [lwwPick, hlt])
          exact ⟨q, hq, le_trans (le_of_lt hlt) hle⟩
        · exact ih (RSet.mergeStep ts s kv) kv.1 p
            (by rw [hstep]; simp [lwwPick, hlt])
      · exact ih (RSet.mergeStep ts s kv) k p
          (by rw [RSet.lookup_mergeStep_ne ts s kv k hk]; exact h)

theorem RSet.lookup_merge_of_mem {K V : Type} [DecidableEq K] (ts : V → Time)
    (u : RSet K V) : ∀ (s : RSet K V) (kv : K × V), kv ∈ u →
      ∃ q, RSet.lookup (RSet.merge ts s u) kv.1 = some q ∧ ts kv.2 ≤ ts q := by
  induction u with
  | nil => intro s kv h; exact absurd h (List.not_mem_nil _)
  | cons kv2 t ih =>
      intro s kv h
      rw [RSet.merge_cons]
      rcases List.mem_cons.mp h with heq | hmem
      · rw [← heq]
        have hstep := RSet.lookup_mergeStep_self ts s kv
        cases hs : RSet.lookup s kv.1 with
        | none =>
            rw [hs] at hstep
            simp only [lwwPick] at hstep
            exact RSet.lookup_merge_ts_mono ts t (RSet.mergeStep ts s kv) kv.1 kv.2 hstep
        | some prev =>
            rw [hs] at hstep
            by_cases hlt : ts prev < ts kv.2
            · exact RSet.lookup_merge_ts_mono ts t (RSet.mergeStep ts s kv) kv.1 kv.2
                (by rw [hstep]; simp [lwwPick, hlt])
            · obtain ⟨q, hq, hle⟩ :=
                RSet.lookup_merge_ts_mono ts t (RSet.mergeStep ts s kv) kv.1 prev
                  (by rw [hstep]; simp [lwwPick, hlt])
              exact ⟨q, hq, le_trans (not_lt.mp hlt) hle⟩
      · exact ih (RSet.mergeStep ts s kv2) kv hmem

theorem RSet.merge_covered {K V : Type} [DecidableEq K] (ts : V → Time)
    (u : RSet K V) : ∀ (m : RSet K V),
      (∀ kv, kv ∈ u → ∃ p, RSet.lookup m kv.1 = some p ∧ ts kv.2 ≤ ts p) →
      RSet.merge ts m u = m := by
  induction u with
  | nil => intro m _; rfl
  | cons kv t ih =>
      intro m h
      rw [RSet.merge_cons]
      obtain ⟨p, hp, hle⟩ := h kv (List.mem_cons_self _ _)
      have hstep : RSet.mergeStep ts m kv = m := by
        simp [RSet.mergeStep, hp, not_lt.mpr hle]
      rw [hstep]
      exact ih m (fun kv2 h2 => h kv2 (List.mem_cons_of_mem _ h2))

theorem RSet.merge_idem {K V : Type} [DecidableEq K] (ts : V → Time)
    (s u : RSet K V) :
    RSet.merge ts (RSet.merge ts s u) u = RSet.merge ts s u :=
  RSet.merge_covered ts u (RSet.merge ts s u)
    (fun kv hkv => RSet.lookup_merge_of_mem ts u s kv hkv)

/-- Claim C1: for every state and update (maps, hence updates with distinct
keys), the merge keeps, for each key, the value with the later comparison
timestamp, keeping the receiver's existing value on ties; and merging the
same update twice yields the same state as merging it once. -/
theorem C1_merge_lww_idempotent {K V : Type} [DecidableEq K] (ts : V → Time)
    (s u : RSet K V) (hu : (RSet.keys u).Nodup) :
    (∀ k, RSet.lookup (RSet.merge ts s u) k
        = lwwPick ts (RSet.lookup s k) (RSet.lookup u k))
    ∧ RSet.merge ts (RSet.merge ts s u) u = RSet.merge ts s u :=
  ⟨fun k => RSet.lookup_merge ts u s k hu, RSet.merge_idem ts s u⟩

/-- Concrete instance of claim C1 at a two-entry update over a one-entry
state, with the identity timestamp projection. -/
theorem C1_witness :
    (RSet.keys [((1 : Nat), (7 : Int)), (2, 3)]).Nodup
    ∧ ((∀ k, RSet.lookup (RSet.merge id [((1 : Nat), (5 : Int))] [(1, 7), (2, 3)]) k
          = lwwPick id (RSet.lookup [((1 : Nat), (5 : Int))] k)
              (RSet.lookup [((1 : Nat), (7 : Int)), (2, 3)] k))
        ∧ RSet.merge id (RSet.merge id [((1 : Nat), (5 : Int))] [(1, 7), (2, 3)])
            [(1, 7), (2, 3)]
          = RSet.merge id [((1 : Nat), (5 : Int))] [(1, 7), (2, 3)]) :=
  ⟨by decide, C1_merge_lww_idempotent id [(1, 5)] [(1, 7), (2, 3)] (by decide)⟩


/-- Claim C2: Silences.Del fails with NotFound when the id is absent; fails
with the already-ended error when the stored silence ended before now;
otherwise it builds the tombstone copy with UpdatedAt = now and
EndsAt = now, re-validates it (failing with the init error when invalid),
merges it into the local store and broadcasts it; on every error outcome
the store state is unchanged and nothing is broadcast. -/
theorem C2_del_outcomes (validate : Silence → Bool) (st : silSet) (id : UUID)
    (now : Time) :
    (RSet.lookup st id = none →
      Silences.Del validate st id now
        = ⟨some DelError.notFound, st, none⟩)
    ∧ (∀ sil, RSet.lookup st id = some sil → sil.EndsAt < now →
        Silences.Del validate st id now
          = ⟨some DelError.alreadyEnded, st, none⟩)
    ∧ (∀ sil, RSet.lookup st id = some sil → ¬ sil.EndsAt < now →
        validate { sil with UpdatedAt := now, EndsAt := now } = false →
        Silences.Del validate st id now
          = ⟨some DelError.initError, st, none⟩)
    ∧ (∀ sil, RSet.lookup st id = some sil → ¬ sil.EndsAt < now →
        validate { sil with UpdatedAt := now, EndsAt := now } = true →
        Silences.Del validate st id now
          = ⟨none,
              RSet.merge silTs st
                [(sil.ID, { sil with UpdatedAt := now, EndsAt := now })],
              some [(sil.ID, { sil with UpdatedAt := now, EndsAt := now })]⟩) := by
  refine ⟨?_, ?_, ?_, ?_⟩
  · intro h
    simp [Silences.Del, h]
  · intro sil h hlt
    simp [Silences.Del, h, hlt]
  · intro sil h hlt hv
    simp [Silences.Del, h, hlt, hv]
  · intro sil h hlt hv
    simp [Silences.Del, h, hlt, hv]

/-- Concrete instance of claim C2, exercising all four outcomes of Del:
absent id, already-ended silence, invalid tombstone, and successful
deletion of an active silence. -/
theorem C2_witness :
    (RSet.lookup ([(1, silActive)] : silSet) 2 = none
      ∧ Silences.Del silenceContentValid [(1, silActive)] 2 3
          = ⟨some DelError.notFound, [(1, silActive)], none⟩)
    ∧ (RSet.lookup ([(1, silActive)] : silSet) 1 = some silActive
      ∧ silActive.EndsAt < 20
      ∧ Silences.Del silenceContentValid [(1, silActive)] 1 20
          = ⟨some DelError.alreadyEnded, [(1, silActive)], none⟩)
    ∧ (RSet.lookup ([(1, silNoMatchers)] : silSet) 1 = some silNoMatchers
      ∧ ¬ silNoMatchers.EndsAt < 3
      ∧ silenceContentValid { silNoMatchers with UpdatedAt := 3, EndsAt := 3 } = false
      ∧ Silences.Del silenceContentValid [(1, silNoMatchers)] 1 3
          = ⟨some DelError.initError, [(1, silNoMatchers)], none⟩)
    ∧ (RSet.lookup ([(1, silActive)] : silSet) 1 = some silActive
      ∧ ¬ silActive.EndsAt < 3
      ∧ silenceContentValid { silActive with UpdatedAt := 3, EndsAt := 3 } = true
      ∧ Silences.Del silenceContentValid [(1, silActive)] 1 3
          = ⟨none,
              RSet.merge silTs [(1, silActive)]
                [(silActive.ID, { silActive with UpdatedAt := 3, EndsAt := 3 })],
              some [(silActive.ID, { silActive with UpdatedAt := 3, EndsAt := 3 })]⟩) :=
  ⟨⟨by decide,
      (C2_del_outcomes silenceContentValid [(1, silActive)] 2 3).1 (by decide)⟩,
    ⟨by decide, by decide,
      (C2_del_outcomes silenceContentValid [(1, silActive)] 1 20).2.1 silActive
        (by decide) (by decide)⟩,
    ⟨by decide, by decide, by decide,
      (C2_del_outcomes silenceContentValid [(1, silNoMatchers)] 1 3).2.2.1 silNoMatchers
        (by decide) (by decide) (by decide)⟩,
    ⟨by decide, by decide, by decide,
      (C2_del_outcomes silenceContentValid [(1, silActive)] 1 3).2.2.2 silActive
        (by decide) (by decide) (by decide)⟩⟩

/-- Claim C5 counterexample: a content-invalid silence (no matchers)
passed to Silences.Set yields no error — the validation failure the claim
requires is never produced. -/
theorem C5_counterexample :
    silenceContentValid silNoMatchers = false
    ∧ (Silences.Set [] silNoMatchers 7 3).err = none := by decide

/-- Claim C5 amended: Silences.Set performs no validation at all and
returns a nil error for every silence, including content-invalid ones;
invalid input is merged and broadcast rather than surfaced as an error. -/
theorem C5_set_never_errors (st : silSet) (sil : Silence) (freshId : UUID)
    (now : Time) :
    (Silences.Set st sil freshId now).err = none := rfl

/-- Claim C7: Silences.Set keeps a non-nil id and assigns the supplied
fresh id when the id is nil; stamps UpdatedAt = now; merges the
single-entry update into the local store and broadcasts that same update;
and returns the resulting id. -/
theorem C7_set_spec (st : silSet) (sil : Silence) (freshId : UUID) (now : Time) :
    (Silences.Set st sil freshId now).retId
        = (if sil.ID = uuidNil then freshId else sil.ID)
    ∧ (Silences.Set st sil freshId now).broadcast
        = some [((Silences.Set st sil freshId now).retId,
            { sil with ID := (Silences.Set st sil freshId now).retId, UpdatedAt := now })]
    ∧ (Silences.Set st sil freshId now).state
        = RSet.merge silTs st
            [((Silences.Set st sil freshId now).retId,
              { sil with ID := (Silences.Set st sil freshId now).retId, UpdatedAt := now })] :=
  ⟨rfl, rfl, rfl⟩

theorem NotificationInfos.foldl_append_eq_map (st : notifSet) (dest : String)
    (fps : List Nat) : ∀ acc : List (Option NotifyInfo),
    fps.foldl (fun res fp => res ++ [NotificationInfos.getOne st dest fp]) acc
      = acc ++ fps.map (NotificationInfos.getOne st dest) := by
  induction fps with
  | nil => intro acc; simp
  | cons fp t ih =>
      intro acc
      rw [List.foldl_cons, ih (acc ++ [NotificationInfos.getOne st dest fp])]
      simp

theorem NotificationInfos.get_eq_map (st : notifSet) (dest : String)
    (fps : List Nat) :
    NotificationInfos.Get st dest fps
      = fps.map (NotificationInfos.getOne st dest) := by
  unfold NotificationInfos.Get
  rw [NotificationInfos.foldl_append_eq_map st dest fps []]
  simp

/-- Claim C6: NotificationInfos.Get returns a list of the same length as
the input fingerprint sequence, aligned positionally: position i holds the
stored entry for (fingerprint i, receiver) as a NotifyInfo when present,
and the explicit absent marker (nil) at that position otherwise. -/
theorem C6_get_positional (st : notifSet) (dest : String) (fps : List Nat) :
    (NotificationInfos.Get st dest fps).length = fps.length
    ∧ ∀ i : Nat, (NotificationInfos.Get st dest fps)[i]?
        = (fps[i]?).map (NotificationInfos.getOne st dest) := by
  rw [NotificationInfos.get_eq_map st dest fps]
  exact ⟨List.length_map fps _, fun i => List.getElem?_map _ _ _⟩

theorem lookup_buildNotifStep_ne (ys : List NotifyInfo) (k : String) :
    ∀ acc : notifSet, (∀ m ∈ ys, notifKey m.Alert m.Receiver ≠ k) →
      RSet.lookup
        (ys.foldl
          (fun acc n =>
            RSet.insert acc (notifKey n.Alert n.Receiver) ⟨n.Resolved, n.Timestamp⟩)
          acc) k
        = RSet.lookup acc k := by
  induction ys with
  | nil => intro acc _; rfl
  | cons m t ih =>
      intro acc h
      rw [List.foldl_cons, ih _ (fun x hx => h x (List.mem_cons_of_mem _ hx)),
        RSet.lookup_insert]
      rw [if_neg (Ne.symm (h m (List.mem_cons_self _ _)))]

/-- Claim C10: when the batch passed to NotificationInfos.Set contains
several entries with the same (fingerprint, receiver) key, the last such
entry in argument order is the one included in the update that is merged
and broadcast; and Set always returns a nil error. -/
theorem C10_set_last_wins (st : notifSet) (xs ys : List NotifyInfo)
    (n : NotifyInfo)
    (hys : ∀ m ∈ ys, notifKey m.Alert m.Receiver ≠ notifKey n.Alert n.Receiver) :
    RSet.lookup (NotificationInfos.Set st (xs ++ n :: ys)).broadcast
        (notifKey n.Alert n.Receiver)
      = some ⟨n.Resolved, n.Timestamp⟩
    ∧ ∀ ms : List NotifyInfo, (NotificationInfos.Set st ms).err = none := by
  refine ⟨?_, fun ms => rfl⟩
  show RSet.lookup (buildNotifSet (xs ++ n :: ys)) (notifKey n.Alert n.Receiver)
    = some ⟨n.Resolved, n.Timestamp⟩
  unfold buildNotifSet
  rw [List.foldl_append, List.foldl_cons,
    lookup_buildNotifStep_ne ys (notifKey n.Alert n.Receiver) _ hys,
    RSet.lookup_insert]
  rw [if_pos rfl]

/-- Concrete instance of claim C10: a batch with two entries for the same
(fingerprint, receiver) key followed by an entry with a different key; the
second entry wins over the first and Set reports no error. -/
theorem C10_witness :
    (∀ m ∈ [NotifyInfo.mk 2 "team-a" false 1],
        notifKey m.Alert m.Receiver ≠ notifKey 1 "team-a")
    ∧ (RSet.lookup
        (NotificationInfos.Set []
          ([NotifyInfo.mk 1 "team-a" false 5]
            ++ NotifyInfo.mk 1 "team-a" true 9 :: [NotifyInfo.mk 2 "team-a" false 1])).broadcast
        (notifKey 1 "team-a")
        = some ⟨true, 9⟩
      ∧ ∀ ms : List NotifyInfo, (NotificationInfos.Set [] ms).err = none) :=
  ⟨by decide,
    C10_set_last_wins [] [NotifyInfo.mk 1 "team-a" false 5]
      [NotifyInfo.mk 2 "team-a" false 1] (NotifyInfo.mk 1 "team-a" true 9)
      (by decide)⟩

/-- Claim C8: on an inbound payload that fails to decode, each of the six
receive callbacks (OnGossip, OnGossipBroadcast, OnGossipUnicast of both
stores) returns the decode error to its caller, relays nothing, and leaves
the local store state unchanged. -/
theorem C8_decode_error_propagated (nst : notifSet) (sst : silSet) :
    ((NotificationInfos.OnGossip nst Payload.corrupt).err ≠ none
      ∧ (NotificationInfos.OnGossip nst Payload.corrupt).ret = none
      ∧ (NotificationInfos.OnGossip nst Payload.corrupt).state = nst)
    ∧ ((NotificationInfos.OnGossipBroadcast nst Payload.corrupt).err ≠ none
      ∧ (NotificationInfos.OnGossipBroadcast nst Payload.corrupt).ret = none
      ∧ (NotificationInfos.OnGossipBroadcast nst Payload.corrupt).state = nst)
    ∧ ((NotificationInfos.OnGossipUnicast nst Payload.corrupt).1 ≠ none
      ∧ (NotificationInfos.OnGossipUnicast nst Payload.corrupt).2 = nst)
    ∧ ((Silences.OnGossip sst Payload.corrupt).err ≠ none
      ∧ (Silences.OnGossip sst Payload.corrupt).ret = none
      ∧ (Silences.OnGossip sst Payload.corrupt).state = sst)
    ∧ ((Silences.OnGossipBroadcast sst Payload.corrupt).err ≠ none
      ∧ (Silences.OnGossipBroadcast sst Payload.corrupt).ret = none
      ∧ (Silences.OnGossipBroadcast sst Payload.corrupt).state = sst)
    ∧ ((Silences.OnGossipUnicast sst Payload.corrupt).1 ≠ none
      ∧ (Silences.OnGossipUnicast sst Payload.corrupt).2 = sst) := by
  refine ⟨⟨?_, rfl, rfl⟩, ⟨?_, rfl, rfl⟩, ⟨?_, rfl⟩, ⟨?_, rfl, rfl⟩,
    ⟨?_, rfl, rfl⟩, ⟨?_, rfl⟩⟩ <;> simp [NotificationInfos.OnGossip,
      NotificationInfos.OnGossipBroadcast, NotificationInfos.OnGossipUnicast,
      Silences.OnGossip, Silences.OnGossipBroadcast, Silences.OnGossipUnicast,
      decodeNotificationSet, decodeSilenceSet, decodeSet]

/-- Claim C3 counterexample: an inbound fragment whose merge produces an
empty delta (the stored entry has an equal timestamp, so nothing changes);
OnGossipBroadcast returns an empty-but-present delta, while OnGossip on
the same fragment signals nothing to relay — their result semantics
differ. -/
theorem C3_counterexample :
    (Silences.OnGossipBroadcast [(1, silActive)]
        (Payload.wellFormed [(1, silActive)])).ret = some []
    ∧ (Silences.OnGossip [(1, silActive)]
        (Payload.wellFormed [(1, silActive)])).ret = none
    ∧ (Silences.OnGossipBroadcast [(1, silActive)]
          (Payload.wellFormed [(1, silActive)])).ret
        ≠ (Silences.OnGossip [(1, silActive)]
            (Payload.wellFormed [(1, silActive)])).ret
    ∧ (NotificationInfos.OnGossipBroadcast [("k", ⟨false, 5⟩)]
        (Payload.wellFormed [("k", ⟨false, 5⟩)])).ret = some []
    ∧ (NotificationInfos.OnGossip [("k", ⟨false, 5⟩)]
        (Payload.wellFormed [("k", ⟨false, 5⟩)])).ret = none := by decide

/-- Claim C3 amended: on a fragment that decodes, OnGossipBroadcast
returns the merge delta unconditionally — on an empty delta it returns an
empty-but-present value rather than signalling nothing to relay — whereas
OnGossip returns nothing exactly when the delta is empty; the two
callbacks agree only on non-empty deltas. -/
theorem C3_broadcast_returns_delta (nst nu : notifSet) (sst su : silSet) :
    ((Silences.OnGossipBroadcast sst (Payload.wellFormed su)).ret
        = some (RSet.mergeDelta silTs sst su).2)
    ∧ ((RSet.mergeDelta silTs sst su).2.isEmpty = true →
        (Silences.OnGossip sst (Payload.wellFormed su)).ret = none)
    ∧ ((RSet.mergeDelta silTs sst su).2.isEmpty = false →
        (Silences.OnGossip sst (Payload.wellFormed su)).ret
          = some (RSet.mergeDelta silTs sst su).2)
    ∧ ((NotificationInfos.OnGossipBroadcast nst (Payload.wellFormed nu)).ret
        = some (RSet.mergeDelta notifTs nst nu).2)
    ∧ ((RSet.mergeDelta notifTs nst nu).2.isEmpty = true →
        (NotificationInfos.OnGossip nst (Payload.wellFormed nu)).ret = none)
    ∧ ((RSet.mergeDelta notifTs nst nu).2.isEmpty = false →
        (NotificationInfos.OnGossip nst (Payload.wellFormed nu)).ret
          = some (RSet.mergeDelta notifTs nst nu).2) := by
  refine ⟨rfl, ?_, ?_, rfl, ?_, ?_⟩ <;> intro h <;>
    simp [Silences.OnGossip, NotificationInfos.OnGossip, decodeSilenceSet,
      decodeNotificationSet, decodeSet, h]

/-- Concrete instance of amended claim C3: an empty-delta fragment and a
non-empty-delta fragment for the silence store. -/
theorem C3_witness :
    ((RSet.mergeDelta silTs [(2, silActive)] [(2, silActive)]).2.isEmpty = true
      ∧ (Silences.OnGossip [(2, silActive)]
          (Payload.wellFormed [(2, silActive)])).ret = none)
    ∧ ((RSet.mergeDelta silTs [] [(2, silActive)]).2.isEmpty = false
      ∧ (Silences.OnGossip []
            (Payload.wellFormed [(2, silActive)])).ret
          = some (RSet.mergeDelta silTs [] [(2, silActive)]).2) :=
  ⟨⟨by decide,
      (C3_broadcast_returns_delta [] [] [(2, silActive)] [(2, silActive)]).2.1
        (by decide)⟩,
    ⟨by decide,
      (C3_broadcast_returns_delta [] [] [] [(2, silActive)]).2.2.1
        (by decide)⟩⟩

/-- Claim C4 counterexample: Silences.Get returns the stored pointer
itself; writing a different silence through that pointer changes the
silence the store exposes for the id, so callers do receive a mutable
handle into store internals. -/
theorem C4_counterexample :
    Silences.GetPtr [(1, 7)] 1 = some 7
    ∧ storedSilence [(7, silActive)] [(1, 7)] 1 = some silActive
    ∧ storedSilence (heapWrite [(7, silActive)] 7 silNoMatchers) [(1, 7)] 1
        = some silNoMatchers
    ∧ storedSilence (heapWrite [(7, silActive)] 7 silNoMatchers) [(1, 7)] 1
        ≠ storedSilence [(7, silActive)] [(1, 7)] 1 := by decide

/-- Claim C4 amended: Get and All hand out the pointers stored in the map
itself, not copies: Get returns exactly the stored reference, every
pointer returned by All is a stored pointer, and a write through a pointer
returned by Get is visible in the silence the store exposes for that id —
non-mutation is a caller convention, not enforced by copying. -/
theorem C4_get_all_alias_store (st : silPtrSet) (h : SilHeap) (id : UUID)
    (a : Addr) (s1 : Silence) (hget : Silences.GetPtr st id = some a) :
    Silences.GetPtr st id = RSet.lookup st id
    ∧ storedSilence (heapWrite h a s1) st id = some s1
    ∧ ∀ p ∈ Silences.AllPtr st, ∃ i, (i, p) ∈ st := by
  refine ⟨rfl, ?_, ?_⟩
  · have hl : RSet.lookup st id = some a := hget
    simp [storedSilence, heapWrite, hl, RSet.lookup_insert]
  · intro p hp
    simp only [Silences.AllPtr, List.mem_map] at hp
    obtain ⟨⟨i, p2⟩, hmem, rfl⟩ := hp
    exact ⟨i, hmem⟩

/-- Concrete instance of amended claim C4: a one-entry store whose stored
pointer is returned by Get and through which a write is store-visible. -/
theorem C4_witness :
    Silences.GetPtr [(1, 7)] 1 = some 7
    ∧ (Silences.GetPtr [(1, 7)] 1 = RSet.lookup [(1, 7)] 1
      ∧ storedSilence (heapWrite [(7, silActive)] 7 silNoMatchers) [(1, 7)] 1
          = some silNoMatchers
      ∧ ∀ p ∈ Silences.AllPtr [(1, 7)], ∃ i, (i, p) ∈ ([(1, 7)] : silPtrSet)) :=
  ⟨by decide,
    C4_get_all_alias_store [(1, 7)] [(7, silActive)] 1 7 silNoMatchers (by decide)⟩

theorem readsLocked_append_reads {A : Type} (l : List A) (rest : List LockEv)
    (d : Nat) (hd : 0 < d) (hrest : readsLocked rest d = true) :
    readsLocked ((l.map fun _ => LockEv.readSet) ++ rest) d = true := by
  induction l with
  | nil => simpa using hrest
  | cons x t ih => simpa [readsLocked, hd] using ih

/-- Claim C9: the silence store readers Mutes, All and Get access the
shared mapping only while holding the read lock, but the reader
NotificationInfos.Get takes no lock at all: on any non-empty fingerprint
list its trace performs a shared-map read with the lock never held, so the
claim that every reader acquires the shared lock fails on the code. -/
theorem C9_reader_lock_traces (sst : silSet) (fp : Nat) (fps : List Nat) :
    readsLocked (Silences.MutesTrace sst) 0 = true
    ∧ readsLocked (Silences.AllTrace sst) 0 = true
    ∧ readsLocked Silences.GetTrace 0 = true
    ∧ readsLocked (NotificationInfos.GetTrace (fp :: fps)) 0 = false := by
  refine ⟨?_, ?_, by decide, ?_⟩
  · show readsLocked ((sst.map fun _ => LockEv.readSet) ++ [LockEv.runlock]) 1 = true
    exact readsLocked_append_reads sst [LockEv.runlock] 1 (by decide) rfl
  · show readsLocked ((sst.map fun _ => LockEv.readSet) ++ [LockEv.runlock]) 1 = true
    exact readsLocked_append_reads sst [LockEv.runlock] 1 (by decide) rfl
  · simp [NotificationInfos.GetTrace, readsLocked]

end Alertmanager
